import Mathlib

/-!
Verification development for the proximity & availability curation engine
(`src/services/places.py` and `src/utils/geo.py`).

Modelling conventions:
* Times-of-day are the 4-digit HHMM integers the code computes
  (`int(target_dt.strftime("%H%M"))`), so a timestamp is its Python weekday
  (Mon=0..Sun=6) together with hour and minute.
* Provider opening-hours periods carry an `open` record (day, time) and an
  optional `close` record, exactly as parsed from the details response;
  the HHMM strings are modelled by their numeric value ("0000" is 0).
* Python exceptions are modelled with `Except String`: a raised exception is
  `.error`, normal return is `.ok`.  The try/except wrappers present in the
  source (`_fetch_candidates`, `_check_is_open`) make those functions total,
  so their network part is abstracted as total parameters; the candidate
  processing loop has no handler, so it is modelled in `Except`.
* Coordinates, radii and distances are modelled over `ℚ` in the pipeline so
  that everything stays executable; the real-valued Haversine formula of
  `geo.py` is modelled separately over `ℝ` for its analytic properties.
-/

/-- Timestamp as the engine observes it: Python weekday (Mon=0..Sun=6) plus
clock time, from which the code derives the HHMM integer. -/
structure Timestamp where
  weekday : Nat
  hour : Nat
  minute : Nat
deriving DecidableEq

/-- One endpoint of an opening-hours period: provider day index plus HHMM time. -/
structure PTime where
  day : Nat
  time : Nat
deriving DecidableEq

/-- An opening-hours period: the `open` endpoint (field named `openP` since
`open` is a Lean keyword) and an optional `close` endpoint. -/
structure Period where
  openP : PTime
  close : Option PTime
deriving DecidableEq

/-- Day conversion performed by `_check_is_open`:
`google_day = (python_day + 1) % 7`. -/
def googleDay (target_dt : Timestamp) : Nat := (target_dt.weekday + 1) % 7

/-- HHMM integer of a timestamp: `int(target_dt.strftime("%H%M"))`. -/
def timeInt (target_dt : Timestamp) : Nat := target_dt.hour * 100 + target_dt.minute

/-- The period loop of `_check_is_open` (places.py lines 140-164).  A period
whose day matches but whose `close` record is absent (and which is not the
24/7 sentinel) raises `KeyError` in the source; the surrounding
`try/except` then returns `False` for the whole check, which is why that
branch aborts with `false` here instead of continuing the loop. -/
def checkPeriods (google_day target_time_int : Nat) : List Period → Bool
  | [] => false
  | period :: rest =>
    if period.openP.day = 0 ∧ period.openP.time = 0 ∧ period.close = none then true
    else if period.openP.day = google_day then
      match period.close with
      | none => false
      | some cl =>
        let open_time := period.openP.time
        let close_time := cl.time
        if open_time < close_time then
          if open_time ≤ target_time_int ∧ target_time_int < close_time then true
          else checkPeriods google_day target_time_int rest
        else
          if target_time_int ≥ open_time ∨ target_time_int < close_time then true
          else checkPeriods google_day target_time_int rest
    else checkPeriods google_day target_time_int rest

/-- Pure part of `_check_is_open` (places.py lines 109-168): `none` models a
response with no `result`/`opening_hours` (or a transport failure), which the
code answers with `False`. -/
def _check_is_open (hoursData : Option (List Period)) (target_dt : Timestamp) : Bool :=
  match hoursData with
  | none => false
  | some periods => checkPeriods (googleDay target_dt) (timeInt target_dt) periods

/-- Modelled from the spec: the "always open" sentinel (day 0, time 0000, no
close record). -/
def isAlwaysOpenB (p : Period) : Bool :=
  decide (p.openP.day = 0 ∧ p.openP.time = 0 ∧ p.close = none)

/-- Modelled from the spec: a same-day window is `open ≤ t < close`, an
overnight window is `t ≥ open OR t < close`. -/
def inWindow (open_time close_time t : Nat) : Bool :=
  if open_time < close_time then decide (open_time ≤ t ∧ t < close_time)
  else decide (t ≥ open_time ∨ t < close_time)

/-- Modelled from the spec: a period covers the target when its day equals the
converted day-of-week and the HHMM value falls in its window. -/
def periodMatches (google_day t : Nat) (p : Period) : Bool :=
  decide (p.openP.day = google_day) &&
    (match p.close with
     | some cl => inWindow p.openP.time cl.time t
     | none => false)

/-- Modelled from the spec: open iff some period is the sentinel or some
period of the right day covers the time. -/
def is_open_at_spec (periods : List Period) (google_day t : Nat) : Bool :=
  periods.any isAlwaysOpenB || periods.any (periodMatches google_day t)

/-- A well-formed period either has a `close` record or is the 24/7 sentinel
(this is the shape of every opening-hours period in the provider contract). -/
def WFPeriod (p : Period) : Bool := p.close.isSome || isAlwaysOpenB p

/-- Python `str.lower()` (ASCII case folding suffices for the configured terms). -/
def lowerStr (s : String) : String := String.mk (s.data.map Char.toLower)

/-- Character-list helper for substring containment: does the second list start
with the first? -/
def listStartsWith : List Char → List Char → Bool
  | [], _ => true
  | _ :: _, [] => false
  | a :: nrest, b :: hrest => a == b && listStartsWith nrest hrest

/-- Character-list helper: does the needle occur anywhere in the haystack? -/
def subAt : List Char → List Char → Bool
  | needle, [] => needle.isEmpty
  | needle, c :: rest => listStartsWith needle (c :: rest) || subAt needle rest

/-- Python substring test `needle in hay`. -/
def inStr (needle hay : String) : Bool := subAt needle.data hay.data

/-- Raw candidate as built by `_fetch_candidates` (places.py lines 93-102):
every field comes from `dict.get` and so may be `None`.  The rating default
`"N/A"` is folded into `none`; the rating is never read by the engine. -/
structure RawPlace where
  place_id : Option String
  name : Option String
  rating : Option ℚ
  address : Option String
  lat : Option ℚ
  lng : Option ℚ
deriving DecidableEq

/-- Processed candidate after the loop of places.py lines 32-56: the original
fields plus `is_promoted` (1 or 0, as the code stores it), `distance_m` and
`map_url`.  The name is a plain string here because `.lower()` succeeded. -/
structure Place where
  place_id : Option String
  name : String
  rating : Option ℚ
  address : Option String
  lat : ℚ
  lng : ℚ
  is_promoted : Nat
  distance_m : ℚ
  map_url : String
deriving DecidableEq

/-- Python f-string rendering of a possibly-`None` value. -/
def pyStrOf : Option String → String
  | some s => s
  | none => "None"

/-- The map link of places.py lines 47-48, with `quote_plus` (an external
library function) as a parameter. -/
def mapUrlOf (quote_plus : String → String) (place : RawPlace) : String :=
  "https://www.google.com/maps/search/?api=1&query=" ++
    quote_plus (pyStrOf place.name ++ ", " ++ pyStrOf place.address) ++
    "&query_place_id=" ++ pyStrOf place.place_id

/-- Body of the candidate loop (places.py lines 32-56) for one candidate.
`calcDist` abstracts `calculate_distance` at the engine coordinates (the
pipeline keeps distances in `ℚ`).  A `None` name raises `AttributeError` at
`place["name"].lower()`; `None` coordinates raise `TypeError` inside
`math.radians`; the loop has no try/except, so both are `.error`.
`.ok none` is the `continue` of the blacklist and radius filters. -/
def processPlace (calcDist : ℚ → ℚ → ℚ → ℚ → ℚ) (quote_plus : String → String)
    (latitude longitude : ℚ) (blacklist whitelist : List String)
    (radius_meters whitelist_radius : ℚ) (place : RawPlace) :
    Except String (Option Place) :=
  match place.name with
  | none => .error "AttributeError"
  | some nm =>
    let p_name := lowerStr nm
    if blacklist.any (fun b_term => inStr b_term p_name) then .ok none
    else
      let is_whitelisted := whitelist.any (fun w_term => inStr w_term p_name)
      match place.lat, place.lng with
      | some la, some ln =>
        let dist := calcDist latitude longitude la ln
        let processed : Place :=
          { place_id := place.place_id, name := nm, rating := place.rating,
            address := place.address, lat := la, lng := ln,
            is_promoted := if is_whitelisted then 1 else 0,
            distance_m := dist, map_url := mapUrlOf quote_plus place }
        if is_whitelisted then
          if dist > whitelist_radius then .ok none else .ok (some processed)
        else
          if dist > radius_meters then .ok none else .ok (some processed)
      | _, _ => .error "TypeError"

/-- The candidate loop over a whole provider response; the first raised
exception aborts the surrounding call. -/
def processCandidates (calcDist : ℚ → ℚ → ℚ → ℚ → ℚ) (quote_plus : String → String)
    (latitude longitude : ℚ) (blacklist whitelist : List String)
    (radius_meters whitelist_radius : ℚ) : List RawPlace → Except String (List Place)
  | [] => .ok []
  | place :: rest =>
    match processPlace calcDist quote_plus latitude longitude blacklist whitelist
        radius_meters whitelist_radius place with
    | .error e => .error e
    | .ok none =>
      processCandidates calcDist quote_plus latitude longitude blacklist whitelist
        radius_meters whitelist_radius rest
    | .ok (some p) =>
      match processCandidates calcDist quote_plus latitude longitude blacklist whitelist
          radius_meters whitelist_radius rest with
      | .error e => .error e
      | .ok ps => .ok (p :: ps)

/-- Exception-free projection of `processPlace`, agreeing with it on
well-formed candidates (see `processPlace_wf`). -/
def processPlaceP (calcDist : ℚ → ℚ → ℚ → ℚ → ℚ) (quote_plus : String → String)
    (latitude longitude : ℚ) (blacklist whitelist : List String)
    (radius_meters whitelist_radius : ℚ) (place : RawPlace) : Option Place :=
  let nm := place.name.getD ""
  let p_name := lowerStr nm
  if blacklist.any (fun b_term => inStr b_term p_name) then none
  else
    let is_whitelisted := whitelist.any (fun w_term => inStr w_term p_name)
    let la := place.lat.getD 0
    let ln := place.lng.getD 0
    let dist := calcDist latitude longitude la ln
    let processed : Place :=
      { place_id := place.place_id, name := nm, rating := place.rating,
        address := place.address, lat := la, lng := ln,
        is_promoted := if is_whitelisted then 1 else 0,
        distance_m := dist, map_url := mapUrlOf quote_plus place }
    if is_whitelisted then
      if dist > whitelist_radius then none else some processed
    else
      if dist > radius_meters then none else some processed

/-- Exception-free candidate processing on well-formed inputs. -/
def processCandidatesP (calcDist : ℚ → ℚ → ℚ → ℚ → ℚ) (quote_plus : String → String)
    (latitude longitude : ℚ) (blacklist whitelist : List String)
    (radius_meters whitelist_radius : ℚ) (l : List RawPlace) : List Place :=
  l.filterMap (processPlaceP calcDist quote_plus latitude longitude blacklist whitelist
    radius_meters whitelist_radius)

/-- A raw candidate record with the fields the loop dereferences present. -/
def WFRaw (place : RawPlace) : Bool :=
  place.name.isSome && place.lat.isSome && place.lng.isSome

/-- Sort key of places.py line 59: `(-is_promoted, distance_m)`. -/
def sortKey (x : Place) : Int × ℚ := (-(x.is_promoted : Int), x.distance_m)

/-- Lexicographic comparison on the sort key, i.e. the order `list.sort` uses
for the tuple key: promoted first, then ascending distance. -/
def keyLE (x y : Place) : Prop :=
  (sortKey x).1 < (sortKey y).1 ∨
    ((sortKey x).1 = (sortKey y).1 ∧ (sortKey x).2 ≤ (sortKey y).2)

instance : DecidableRel keyLE := fun x y =>
  inferInstanceAs (Decidable ((sortKey x).1 < (sortKey y).1 ∨
    ((sortKey x).1 = (sortKey y).1 ∧ (sortKey x).2 ≤ (sortKey y).2)))

instance : IsTotal Place keyLE where
  total x y := by
    unfold keyLE
    rcases lt_trichotomy (sortKey x).1 (sortKey y).1 with h | h | h
    · exact Or.inl (Or.inl h)
    · rcases le_total (sortKey x).2 (sortKey y).2 with h2 | h2
      · exact Or.inl (Or.inr ⟨h, h2⟩)
      · exact Or.inr (Or.inr ⟨h.symm, h2⟩)
    · exact Or.inr (Or.inl h)

instance : IsTrans Place keyLE where
  trans x y z hxy hyz := by
    unfold keyLE at hxy hyz ⊢
    rcases hxy with h | ⟨he, hd⟩
    · rcases hyz with h2 | ⟨he2, _⟩
      · exact Or.inl (h.trans h2)
      · exact Or.inl (he2 ▸ h)
    · rcases hyz with h2 | ⟨he2, hd2⟩
      · exact Or.inl (he ▸ h2)
      · exact Or.inr ⟨he.trans he2, hd.trans hd2⟩

/-- Python `list.sort(key=lambda x: (-x["is_promoted"], x["distance_m"]))` is a
stable sort by `keyLE`; a stable sort by a total preorder is unique, so
insertion sort models it exactly. -/
def sortPlaces (l : List Place) : List Place := List.insertionSort keyLE l

/-- Inner loop of the time guard (places.py lines 65-69): must be open at
every check time, stopping at the first failure. -/
def allOpenSC (is_open : Timestamp → Bool) : List Timestamp → Bool
  | [] => true
  | t :: rest => if is_open t then allOpenSC is_open rest else false

/-- Instrumented variant of `allOpenSC` that also returns the check times
actually consulted, in order. -/
def allOpenSCT (is_open : Timestamp → Bool) : List Timestamp → Bool × List Timestamp
  | [] => (true, [])
  | t :: rest =>
    if is_open t then
      let r := allOpenSCT is_open rest
      (r.1, t :: r.2)
    else (false, [t])

/-- Outer loop of the time guard (places.py lines 62-74): accumulate verified
candidates in rank order, breaking once three are collected. -/
def timeGuard (ok : Place → Bool) (acc : List Place) : List Place → List Place
  | [] => acc
  | place :: rest =>
    if ok place then
      let acc2 := acc ++ [place]
      if 3 ≤ acc2.length then acc2 else timeGuard ok acc2 rest
    else timeGuard ok acc rest

/-- Instrumented variant of `timeGuard` that also returns the candidates that
were submitted to the availability check, in order. -/
def timeGuardT (ok : Place → Bool) (acc : List Place) :
    List Place → List Place × List Place
  | [] => (acc, [])
  | place :: rest =>
    if ok place then
      let acc2 := acc ++ [place]
      if 3 ≤ acc2.length then (acc2, [place])
      else
        let r := timeGuardT ok acc2 rest
        (r.1, place :: r.2)
    else
      let r := timeGuardT ok acc rest
      (r.1, place :: r.2)

/-- Shape of the mock record of `_get_mock_places` (places.py lines 170-171). -/
structure MockPlace where
  name : String
  rating : ℚ
  address : String
  distance_m : ℚ
deriving DecidableEq

/-- The fixed mock response used when no API key is configured. -/
def _get_mock_places (keyword : String) : List MockPlace :=
  [{ name := "Mock Place", rating := 5, address := "123 Mock St", distance_m := 100 }]

/-- A category result is either the mock record list or a list of processed
places (the two dict shapes the Python code stores in `results`). -/
inductive CatResult where
  | mock : List MockPlace → CatResult
  | real : List Place → CatResult
deriving DecidableEq

/-- A recommendation bucket: `{"name": ..., "keyword": ...}`. -/
structure Category where
  name : String
  keyword : String
deriving DecidableEq

/-- The operator allow/deny configuration; keys may be absent or null. -/
structure ListsConfig where
  whitelist : Option (List String)
  blacklist : Option (List String)
deriving DecidableEq

/-- Python dict assignment `results[k] = v` on an insertion-ordered dict. -/
def dictInsert (k : String) (v : CatResult) :
    List (String × CatResult) → List (String × CatResult)
  | [] => [(k, v)]
  | (k2, v2) :: rest => if k2 = k then (k, v) :: rest else (k2, v2) :: dictInsert k v rest

/-- Python truth test `not api_key`: true for `None` and for the empty string. -/
def keyFalsy : Option String → Bool
  | none => true
  | some s => s.isEmpty

/-- The per-category loop of `get_nearby_places` (places.py lines 22-76).
`fetchF` abstracts `_fetch_candidates` (which catches its own exceptions and
returns a list); `hoursF` abstracts the opening-hours data the details
provider returns for a place id, consumed by the pure part of
`_check_is_open`. -/
def goCats (calcDist : ℚ → ℚ → ℚ → ℚ → ℚ) (quote_plus : String → String)
    (fetchF : ℚ → ℚ → ℚ → String → Option String → List RawPlace)
    (hoursF : Option String → Option (List Period))
    (latitude longitude radius_meters : ℚ) (check_times : List Timestamp)
    (api_key : Option String) (whitelist_radius search_radius : ℚ)
    (whitelist blacklist : List String) :
    List (String × CatResult) → List Category → Except String (List (String × CatResult))
  | results, [] => .ok results
  | results, category :: rest =>
    if keyFalsy api_key then
      goCats calcDist quote_plus fetchF hoursF latitude longitude radius_meters
        check_times api_key whitelist_radius search_radius whitelist blacklist
        (dictInsert category.name (CatResult.mock (_get_mock_places category.keyword)) results)
        rest
    else
      match processCandidates calcDist quote_plus latitude longitude blacklist whitelist
          radius_meters whitelist_radius
          (fetchF latitude longitude search_radius category.keyword api_key) with
      | .error e => .error e
      | .ok processed_candidates =>
        let sorted := sortPlaces processed_candidates
        let valid_places := timeGuard
          (fun place => allOpenSC (fun t => _check_is_open (hoursF place.place_id) t) check_times)
          [] sorted
        goCats calcDist quote_plus fetchF hoursF latitude longitude radius_meters
          check_times api_key whitelist_radius search_radius whitelist blacklist
          (dictInsert category.name (CatResult.real valid_places) results) rest

/-- Entry point `get_nearby_places` (places.py lines 10-78). -/
def get_nearby_places (calcDist : ℚ → ℚ → ℚ → ℚ → ℚ) (quote_plus : String → String)
    (fetchF : ℚ → ℚ → ℚ → String → Option String → List RawPlace)
    (hoursF : Option String → Option (List Period))
    (latitude longitude radius_meters : ℚ) (categories_list : List Category)
    (check_times : List Timestamp) (lists_config : ListsConfig)
    (api_key : Option String) (whitelist_radius : ℚ) :
    Except String (List (String × CatResult)) :=
  let search_radius := max radius_meters whitelist_radius
  let whitelist := (lists_config.whitelist.getD []).map lowerStr
  let blacklist := (lists_config.blacklist.getD []).map lowerStr
  goCats calcDist quote_plus fetchF hoursF latitude longitude radius_meters
    check_times api_key whitelist_radius search_radius whitelist blacklist [] categories_list

/-- Python `math.radians`. -/
noncomputable def radians (x : ℝ) : ℝ := x * (Real.pi / 180)

/-- Python `math.atan2`. -/
noncomputable def atan2 (y x : ℝ) : ℝ :=
  if 0 < x then Real.arctan (y / x)
  else if x < 0 then
    (if 0 ≤ y then Real.arctan (y / x) + Real.pi else Real.arctan (y / x) - Real.pi)
  else if 0 < y then Real.pi / 2
  else if y < 0 then -(Real.pi / 2)
  else 0

/-- `calculate_distance` of geo.py lines 4-21 (Haversine on a sphere of radius
6,371,000 m), with Python floats modelled as reals. -/
noncomputable def calculate_distance (lat1 lon1 lat2 lon2 : ℝ) : ℝ :=
  let R : ℝ := 6371000
  let phi1 := radians lat1
  let phi2 := radians lat2
  let delta_phi := radians (lat2 - lat1)
  let delta_lambda := radians (lon2 - lon1)
  let a := Real.sin (delta_phi / 2) ^ 2 +
    Real.cos phi1 * Real.cos phi2 * Real.sin (delta_lambda / 2) ^ 2
  let c := 2 * atan2 (Real.sqrt a) (Real.sqrt (1 - a))
  R * c

/-- Concrete processed place used to instantiate theorems on closed inputs. -/
def samplePlace : Place :=
  { place_id := some "pid1", name := "Corner Cafe", rating := some 4,
    address := some "1 Main St", lat := 1, lng := 1, is_promoted := 0,
    distance_m := 500, map_url := "u" }

/-- Concrete well-formed raw candidate used to instantiate theorems. -/
def sampleRaw : RawPlace :=
  { place_id := some "p1", name := some "Corner Cafe", rating := none,
    address := some "A St", lat := some 0, lng := some 0 }

/-- The processed record the engine builds from `sampleRaw` with a constant
distance of 500 and identity URL quoting. -/
def sampleProcessed : Place :=
  { place_id := some "p1", name := "Corner Cafe", rating := none,
    address := some "A St", lat := 0, lng := 0, is_promoted := 0,
    distance_m := 500, map_url := mapUrlOf id sampleRaw }

theorem checkPeriods_eq_spec (google_day t : Nat) :
    ∀ periods : List Period, periods.all WFPeriod = true →
      checkPeriods google_day t periods = is_open_at_spec periods google_day t := by
  intro periods
  induction periods with
  | nil => intro _; rfl
  | cons period rest ih =>
    intro hwf
    rw [List.all_cons, Bool.and_eq_true] at hwf
    obtain ⟨hwfp, hwfr⟩ := hwf
    by_cases h1 : period.openP.day = 0 ∧ period.openP.time = 0 ∧ period.close = none
    · have hao : isAlwaysOpenB period = true := by
        unfold isAlwaysOpenB; exact decide_eq_true h1
      simp [checkPeriods, h1, is_open_at_spec, List.any_cons, hao]
    · have hao : isAlwaysOpenB period = false := by
        unfold isAlwaysOpenB; exact decide_eq_false h1
      by_cases h2 : period.openP.day = google_day
      · cases hcl : period.close with
        | none =>
          exfalso
          unfold WFPeriod at hwfp
          rw [hcl] at hwfp
          simp only [Option.isSome_none, Bool.false_or] at hwfp
          rw [isAlwaysOpenB, decide_eq_true_eq] at hwfp
          exact h1 hwfp
        | some cl =>
          have hpm : periodMatches google_day t period =
              inWindow period.openP.time cl.time t := by
            unfold periodMatches
            rw [hcl]
            simp [h2]
          by_cases h3 : period.openP.time < cl.time
          · by_cases h4 : period.openP.time ≤ t ∧ t < cl.time
            · have hw : inWindow period.openP.time cl.time t = true := by
                unfold inWindow; rw [if_pos h3]; exact decide_eq_true h4
              simp [checkPeriods, h1, h2, hcl, h3, h4, is_open_at_spec,
                List.any_cons, hpm, hw]
            · have hw : inWindow period.openP.time cl.time t = false := by
                unfold inWindow; rw [if_pos h3]; exact decide_eq_false h4
              have := ih hwfr
              simp only [checkPeriods, h1, h2, hcl, h3, h4, if_false, if_pos,
                if_neg, ite_false, ite_true] at *
              simp [checkPeriods, h1, h2, hcl, if_pos h3, if_neg h4,
                is_open_at_spec, List.any_cons, hpm, hw, hao, this]
          · by_cases h4 : t ≥ period.openP.time ∨ t < cl.time
            · have hw : inWindow period.openP.time cl.time t = true := by
                unfold inWindow; rw [if_neg h3]; exact decide_eq_true h4
              simp [checkPeriods, h1, h2, hcl, h3, h4, is_open_at_spec,
                List.any_cons, hpm, hw]
            · have hw : inWindow period.openP.time cl.time t = false := by
                unfold inWindow; rw [if_neg h3]; exact decide_eq_false h4
              simp [checkPeriods, h1, h2, hcl, if_neg h3, if_neg h4,
                is_open_at_spec, List.any_cons, hpm, hw, hao, ih hwfr]
      · have hpm : periodMatches google_day t period = false := by
          unfold periodMatches
          simp [h2]
        simp [checkPeriods, h1, h2, is_open_at_spec, List.any_cons, hpm, hao,
          ih hwfr]

/-- C1: for every list of well-formed opening-hours periods and every
timestamp, `_check_is_open` returns true exactly when some period is the
always-open sentinel or some period of the converted day-of-week covers the
HHMM value (inclusive lower bound, exclusive upper bound, overnight windows
wrapping midnight); absent opening-hours data yields false. -/
theorem c1_check_is_open_matches_spec (periods : List Period) (ts : Timestamp)
    (hwf : periods.all WFPeriod = true) :
    _check_is_open (some periods) ts = is_open_at_spec periods (googleDay ts) (timeInt ts) ∧
      _check_is_open none ts = false :=
  ⟨checkPeriods_eq_spec (googleDay ts) (timeInt ts) periods hwf, rfl⟩

/-- C1 witness: the overnight period 1800-0200 on provider day 1 (a Monday
checkpoint), checked at 23:00, 01:00, 18:00 (open) and 17:00, 02:00 (closed). -/
theorem c1_witness :
    (([⟨⟨1, 1800⟩, some ⟨2, 200⟩⟩] : List Period).all WFPeriod = true) ∧
      _check_is_open (some [⟨⟨1, 1800⟩, some ⟨2, 200⟩⟩]) ⟨0, 23, 0⟩ = true ∧
      _check_is_open (some [⟨⟨1, 1800⟩, some ⟨2, 200⟩⟩]) ⟨0, 1, 0⟩ = true ∧
      _check_is_open (some [⟨⟨1, 1800⟩, some ⟨2, 200⟩⟩]) ⟨0, 18, 0⟩ = true ∧
      _check_is_open (some [⟨⟨1, 1800⟩, some ⟨2, 200⟩⟩]) ⟨0, 17, 0⟩ = false ∧
      _check_is_open (some [⟨⟨1, 1800⟩, some ⟨2, 200⟩⟩]) ⟨0, 2, 0⟩ = false := by
  refine ⟨by decide, ?_, by decide, by decide, by decide, by decide⟩
  rw [(c1_check_is_open_matches_spec [⟨⟨1, 1800⟩, some ⟨2, 200⟩⟩] ⟨0, 23, 0⟩ (by decide)).1]
  decide

theorem allOpenSC_eq_all (is_open : Timestamp → Bool) :
    ∀ ts : List Timestamp, allOpenSC is_open ts = ts.all is_open := by
  intro ts
  induction ts with
  | nil => rfl
  | cons t rest ih =>
    rw [allOpenSC, List.all_cons]
    by_cases h : is_open t = true
    · rw [if_pos h, h, Bool.true_and, ih]
    · rw [Bool.not_eq_true] at h
      rw [if_neg (by simp [h]), h, Bool.false_and]

theorem allOpenSCT_trace (is_open : Timestamp → Bool) :
    ∀ ts : List Timestamp,
      (allOpenSCT is_open ts).1 = allOpenSC is_open ts ∧
        (allOpenSCT is_open ts).2 =
          ts.takeWhile is_open ++ (ts.dropWhile is_open).take 1 := by
  intro ts
  induction ts with
  | nil => exact ⟨rfl, rfl⟩
  | cons t rest ih =>
    by_cases h : is_open t = true
    · constructor
      · simp only [allOpenSCT, allOpenSC, if_pos h]
        exact ih.1
      · simp only [allOpenSCT, if_pos h, List.takeWhile_cons, List.dropWhile_cons, h,
          ite_true, List.cons_append]
        rw [ih.2]
    · rw [Bool.not_eq_true] at h
      constructor
      · simp only [allOpenSCT, allOpenSC, h, Bool.false_eq_true, if_false]
      · simp only [allOpenSCT, h, Bool.false_eq_true, if_false, List.takeWhile_cons,
          List.dropWhile_cons, ite_false, List.nil_append, List.take]

theorem timeGuard_congr (ok₁ ok₂ : Place → Bool) (h : ∀ p, ok₁ p = ok₂ p)
    (acc l : List Place) : timeGuard ok₁ acc l = timeGuard ok₂ acc l := by
  have he : ok₁ = ok₂ := funext h
  rw [he]

theorem mem_timeGuard (ok : Place → Bool) (p : Place) :
    ∀ (l acc : List Place), p ∈ timeGuard ok acc l → p ∈ acc ∨ (p ∈ l ∧ ok p = true) := by
  intro l
  induction l with
  | nil => intro acc h; exact Or.inl h
  | cons place rest ih =>
    intro acc h
    rw [timeGuard] at h
    by_cases hok : ok place = true
    · rw [if_pos hok] at h
      by_cases h3 : 3 ≤ (acc ++ [place]).length
      · rw [if_pos h3] at h
        rcases List.mem_append.mp h with h | h
        · exact Or.inl h
        · rw [List.mem_singleton] at h
          subst h
          exact Or.inr ⟨List.mem_cons_self _ _, hok⟩
      · rw [if_neg h3] at h
        rcases ih _ h with h | ⟨hmem, hokp⟩
        · rcases List.mem_append.mp h with h | h
          · exact Or.inl h
          · rw [List.mem_singleton] at h
            subst h
            exact Or.inr ⟨List.mem_cons_self _ _, hok⟩
        · exact Or.inr ⟨List.mem_cons_of_mem _ hmem, hokp⟩
    · rw [Bool.not_eq_true] at hok
      rw [if_neg (by simp [hok])] at h
      rcases ih _ h with h | ⟨hmem, hokp⟩
      · exact Or.inl h
      · exact Or.inr ⟨List.mem_cons_of_mem _ hmem, hokp⟩

/-- C2: a candidate is accepted only when the open-status check succeeds at
every checkpoint (logical AND); the checks run in checkpoint order and stop at
the first failing checkpoint, and replacing the short-circuit conjunction by
the full conjunction changes nothing about which candidates are accepted. -/
theorem c2_and_over_checkpoints (oracle : Option String → Timestamp → Bool)
    (is_open : Timestamp → Bool) (check_times : List Timestamp)
    (processed : List Place) :
    allOpenSC is_open check_times = check_times.all is_open ∧
    (allOpenSCT is_open check_times).2 =
      check_times.takeWhile is_open ++ (check_times.dropWhile is_open).take 1 ∧
    timeGuard (fun place => allOpenSC (fun t => oracle place.place_id t) check_times) [] processed
      = timeGuard (fun place => check_times.all (fun t => oracle place.place_id t)) [] processed ∧
    ∀ place ∈ timeGuard
        (fun place => allOpenSC (fun t => oracle place.place_id t) check_times) [] processed,
      check_times.all (fun t => oracle place.place_id t) = true := by
  refine ⟨allOpenSC_eq_all is_open check_times, (allOpenSCT_trace is_open check_times).2,
    timeGuard_congr _ _ (fun p => allOpenSC_eq_all _ check_times) [] processed, ?_⟩
  intro place hmem
  rcases mem_timeGuard _ place processed [] hmem with h | ⟨_, hok⟩
  · cases h
  · rw [← allOpenSC_eq_all]
    exact hok

/-- C2 witness: a concrete accepted candidate satisfies the full conjunction. -/
theorem c2_witness :
    ([⟨0, 12, 0⟩] : List Timestamp).all
      (fun t => (fun (_ : Option String) (_ : Timestamp) => true) samplePlace.place_id t)
      = true :=
  (c2_and_over_checkpoints (fun _ _ => true) (fun _ => true) [⟨0, 12, 0⟩]
    [samplePlace]).2.2.2 samplePlace (by decide)

theorem timeGuard_length_le (ok : Place → Bool) :
    ∀ (l acc : List Place), acc.length < 3 → (timeGuard ok acc l).length ≤ 3 := by
  intro l
  induction l with
  | nil => intro acc h; exact le_of_lt h
  | cons place rest ih =>
    intro acc hacc
    rw [timeGuard]
    by_cases hok : ok place = true
    · rw [if_pos hok]
      by_cases h3 : 3 ≤ (acc ++ [place]).length
      · rw [if_pos h3]
        simp only [List.length_append, List.length_singleton]
        omega
      · rw [if_neg h3]
        apply ih
        simp only [List.length_append, List.length_singleton] at h3 ⊢
        omega
    · rw [Bool.not_eq_true] at hok
      rw [if_neg (by simp [hok])]
      exact ih _ hacc

theorem timeGuardT_fst (ok : Place → Bool) :
    ∀ (l acc : List Place), (timeGuardT ok acc l).1 = timeGuard ok acc l := by
  intro l
  induction l with
  | nil => intro acc; rfl
  | cons place rest ih =>
    intro acc
    rw [timeGuardT, timeGuard]
    by_cases hok : ok place = true
    · rw [if_pos hok, if_pos hok]
      by_cases h3 : 3 ≤ (acc ++ [place]).length
      · rw [if_pos h3, if_pos h3]
      · rw [if_neg h3, if_neg h3]
        exact ih _
    · rw [Bool.not_eq_true] at hok
      rw [if_neg (by simp [hok]), if_neg (by simp [hok])]
      exact ih _

theorem timeGuardT_filter (ok : Place → Bool) :
    ∀ (l acc : List Place),
      (timeGuardT ok acc l).1 = acc ++ ((timeGuardT ok acc l).2).filter ok := by
  intro l
  induction l with
  | nil => intro acc; simp [timeGuardT]
  | cons place rest ih =>
    intro acc
    rw [timeGuardT]
    by_cases hok : ok place = true
    · rw [if_pos hok]
      by_cases h3 : 3 ≤ (acc ++ [place]).length
      · rw [if_pos h3]
        simp [List.filter_cons, hok]
      · rw [if_neg h3]
        simp only [List.filter_cons, hok, ite_true]
        rw [ih (acc ++ [place])]
        simp [List.append_assoc]
    · rw [Bool.not_eq_true] at hok
      rw [if_neg (by simp [hok])]
      simp only [List.filter_cons, hok, Bool.false_eq_true, ite_false]
      exact ih _

theorem timeGuardT_consumed_init (ok : Place → Bool) :
    ∀ (l acc : List Place), ∃ rest, l = (timeGuardT ok acc l).2 ++ rest := by
  intro l
  induction l with
  | nil => intro acc; exact ⟨[], rfl⟩
  | cons place rest ih =>
    intro acc
    rw [timeGuardT]
    by_cases hok : ok place = true
    · rw [if_pos hok]
      by_cases h3 : 3 ≤ (acc ++ [place]).length
      · rw [if_pos h3]
        exact ⟨rest, rfl⟩
      · rw [if_neg h3]
        obtain ⟨r, hr⟩ := ih (acc ++ [place])
        exact ⟨r, by simpa using congrArg (place :: ·) hr⟩
    · rw [Bool.not_eq_true] at hok
      rw [if_neg (by simp [hok])]
      obtain ⟨r, hr⟩ := ih acc
      exact ⟨r, by simpa using congrArg (place :: ·) hr⟩

theorem timeGuardT_stop (ok : Place → Bool) :
    ∀ (l acc : List Place), acc.length < 3 → (timeGuardT ok acc l).2 ≠ l →
      (timeGuardT ok acc l).1.length = 3 := by
  intro l
  induction l with
  | nil => intro acc _ hne; exact absurd rfl hne
  | cons place rest ih =>
    intro acc hacc hne
    rw [timeGuardT] at hne ⊢
    by_cases hok : ok place = true
    · rw [if_pos hok] at hne ⊢
      by_cases h3 : 3 ≤ (acc ++ [place]).length
      · rw [if_pos h3] at hne ⊢
        simp only [List.length_append, List.length_singleton] at h3 ⊢
        omega
      · rw [if_neg h3] at hne ⊢
        apply ih
        · simp only [List.length_append, List.length_singleton] at h3 ⊢
          omega
        · intro heq
          refine hne ?_
          show place :: (timeGuardT ok (acc ++ [place]) rest).2 = place :: rest
          rw [heq]
    · rw [Bool.not_eq_true] at hok
      rw [if_neg (by simp [hok])] at hne ⊢
      apply ih _ hacc
      intro heq
      refine hne ?_
      show place :: (timeGuardT ok acc rest).2 = place :: rest
      rw [heq]

theorem mem_dictInsert (k : String) (v : CatResult) (kv : String × CatResult) :
    ∀ d : List (String × CatResult), kv ∈ dictInsert k v d → kv = (k, v) ∨ kv ∈ d := by
  intro d
  induction d with
  | nil =>
    intro h
    rw [dictInsert, List.mem_singleton] at h
    exact Or.inl h
  | cons p rest ih =>
    intro h
    obtain ⟨k2, v2⟩ := p
    rw [dictInsert] at h
    by_cases he : k2 = k
    · rw [if_pos he] at h
      rcases List.mem_cons.mp h with h | h
      · exact Or.inl h
      · exact Or.inr (List.mem_cons_of_mem _ h)
    · rw [if_neg he] at h
      rcases List.mem_cons.mp h with h | h
      · exact Or.inr (h ▸ List.mem_cons_self _ _)
      · rcases ih h with h | h
        · exact Or.inl h
        · exact Or.inr (List.mem_cons_of_mem _ h)

theorem mem_goCats
    (calcDist : ℚ → ℚ → ℚ → ℚ → ℚ) (quote_plus : String → String)
    (fetchF : ℚ → ℚ → ℚ → String → Option String → List RawPlace)
    (hoursF : Option String → Option (List Period))
    (latitude longitude radius_meters : ℚ) (check_times : List Timestamp)
    (api_key : Option String) (whitelist_radius search_radius : ℚ)
    (whitelist blacklist : List String) :
    ∀ (cats : List Category) (acc res : List (String × CatResult)),
      goCats calcDist quote_plus fetchF hoursF latitude longitude radius_meters check_times
        api_key whitelist_radius search_radius whitelist blacklist acc cats = .ok res →
      ∀ kv ∈ res, kv ∈ acc ∨
        (∃ c ∈ cats, kv.2 = CatResult.mock (_get_mock_places c.keyword)) ∨
        (∃ c ∈ cats, ∃ procd,
          processCandidates calcDist quote_plus latitude longitude blacklist whitelist
            radius_meters whitelist_radius
            (fetchF latitude longitude search_radius c.keyword api_key) = .ok procd ∧
          kv.2 = CatResult.real (timeGuard
            (fun place =>
              allOpenSC (fun t => _check_is_open (hoursF place.place_id) t) check_times)
            [] (sortPlaces procd))) := by
  intro cats
  induction cats with
  | nil =>
    intro acc res hgo kv hkv
    rw [goCats] at hgo
    cases hgo
    exact Or.inl hkv
  | cons category rest ih =>
    intro acc res hgo kv hkv
    rw [goCats] at hgo
    by_cases hkf : keyFalsy api_key = true
    · rw [if_pos hkf] at hgo
      rcases ih _ _ hgo kv hkv with h | h | h
      · rcases mem_dictInsert _ _ _ _ h with h | h
        · refine Or.inr (Or.inl ⟨category, List.mem_cons_self _ _, ?_⟩)
          rw [h]
        · exact Or.inl h
      · obtain ⟨c, hc, hv⟩ := h
        exact Or.inr (Or.inl ⟨c, List.mem_cons_of_mem _ hc, hv⟩)
      · obtain ⟨c, hc, procd, hpc, hv⟩ := h
        exact Or.inr (Or.inr ⟨c, List.mem_cons_of_mem _ hc, procd, hpc, hv⟩)
    · rw [if_neg hkf] at hgo
      cases hpc : processCandidates calcDist quote_plus latitude longitude blacklist whitelist
          radius_meters whitelist_radius
          (fetchF latitude longitude search_radius category.keyword api_key) with
      | error e => rw [hpc] at hgo; cases hgo
      | ok procd =>
        rw [hpc] at hgo
        simp only at hgo
        rcases ih _ _ hgo kv hkv with h | h | h
        · rcases mem_dictInsert _ _ _ _ h with h | h
          · refine Or.inr (Or.inr ⟨category, List.mem_cons_self _ _, procd, hpc, ?_⟩)
            rw [h]
          · exact Or.inl h
        · obtain ⟨c, hc, hv⟩ := h
          exact Or.inr (Or.inl ⟨c, List.mem_cons_of_mem _ hc, hv⟩)
        · obtain ⟨c, hc, procd2, hpc2, hv⟩ := h
          exact Or.inr (Or.inr ⟨c, List.mem_cons_of_mem _ hc, procd2, hpc2, hv⟩)

/-- C4: every category result has at most 3 entries; moreover the verification
loop consumes the ranked sequence as a prefix, its output is exactly the
accepted members of the candidates it actually checked, and if it stopped
before exhausting the ranked sequence then it had already accepted 3, so
candidates after the third accepted one are never submitted to the
availability check. -/
theorem c4_bounded_selection
    (calcDist : ℚ → ℚ → ℚ → ℚ → ℚ) (quote_plus : String → String)
    (fetchF : ℚ → ℚ → ℚ → String → Option String → List RawPlace)
    (hoursF : Option String → Option (List Period))
    (latitude longitude radius_meters : ℚ) (categories_list : List Category)
    (check_times : List Timestamp) (lists_config : ListsConfig)
    (api_key : Option String) (whitelist_radius : ℚ)
    (res : List (String × CatResult)) (kv : String × CatResult)
    (hok : get_nearby_places calcDist quote_plus fetchF hoursF latitude longitude
      radius_meters categories_list check_times lists_config api_key whitelist_radius
      = .ok res)
    (hkv : kv ∈ res) (ok : Place → Bool) (l : List Place) :
    (match kv.2 with
     | CatResult.mock m => m.length ≤ 3
     | CatResult.real pl => pl.length ≤ 3) ∧
    (timeGuardT ok [] l).1 = timeGuard ok [] l ∧
    timeGuard ok [] l = ((timeGuardT ok [] l).2).filter ok ∧
    (∃ rest, l = (timeGuardT ok [] l).2 ++ rest) ∧
    ((timeGuardT ok [] l).2 ≠ l → (timeGuard ok [] l).length = 3) := by
  refine ⟨?_, timeGuardT_fst ok l [], ?_, timeGuardT_consumed_init ok l [], ?_⟩
  · rw [get_nearby_places] at hok
    obtain ⟨k0, v0⟩ := kv
    rcases mem_goCats _ _ _ _ _ _ _ _ _ _ _ _ _ _ _ _ hok _ hkv with h | h | h
    · cases h
    · obtain ⟨c, _, hv⟩ := h
      have hv2 : v0 = CatResult.mock (_get_mock_places c.keyword) := hv
      subst hv2
      show (_get_mock_places c.keyword).length ≤ 3
      simp [_get_mock_places]
    · obtain ⟨c, _, procd, _, hv⟩ := h
      have hv2 : v0 = CatResult.real (timeGuard
        (fun place =>
          allOpenSC (fun t => _check_is_open (hoursF place.place_id) t) check_times)
        [] (sortPlaces procd)) := hv
      subst hv2
      exact timeGuard_length_le _ _ [] (by decide)
  · rw [← timeGuardT_fst ok l []]
    simpa using timeGuardT_filter ok l []
  · intro hne
    rw [← timeGuardT_fst ok l []]
    exact timeGuardT_stop ok l [] (by decide) hne

/-- C4 witness: the mock path on one category yields a result of length 1. -/
theorem c4_witness : (_get_mock_places "k").length ≤ 3 :=
  (c4_bounded_selection (fun _ _ _ _ => 0) id (fun _ _ _ _ _ => []) (fun _ => none)
    0 0 0 [⟨"c", "k"⟩] [] ⟨none, none⟩ none 0
    [("c", CatResult.mock (_get_mock_places "k"))]
    ("c", CatResult.mock (_get_mock_places "k")) rfl (by decide)
    (fun _ => true) []).1

theorem timeGuard_always_ok (ok : Place → Bool) (hok : ∀ p, ok p = true) :
    ∀ (l acc : List Place), acc.length < 3 →
      timeGuard ok acc l = acc ++ l.take (3 - acc.length) := by
  intro l
  induction l with
  | nil => intro acc _; simp [timeGuard]
  | cons place rest ih =>
    intro acc hacc
    rw [timeGuard, if_pos (hok place)]
    by_cases h3 : 3 ≤ (acc ++ [place]).length
    · rw [if_pos h3]
      have h1 : 3 - acc.length = 1 := by
        simp only [List.length_append, List.length_singleton] at h3
        omega
      rw [h1]
      simp [List.take]
    · rw [if_neg h3]
      rw [ih (acc ++ [place])
        (by simp only [List.length_append, List.length_singleton] at h3 ⊢; omega)]
      have h2 : 3 - acc.length = (3 - (acc ++ [place]).length) + 1 := by
        simp only [List.length_append, List.length_singleton] at h3 ⊢
        omega
      rw [h2]
      simp [List.take_succ_cons, List.append_assoc]

theorem processPlace_wf (calcDist : ℚ → ℚ → ℚ → ℚ → ℚ) (quote_plus : String → String)
    (latitude longitude : ℚ) (blacklist whitelist : List String)
    (radius_meters whitelist_radius : ℚ) (place : RawPlace)
    (hwf : WFRaw place = true) :
    processPlace calcDist quote_plus latitude longitude blacklist whitelist radius_meters
      whitelist_radius place =
    .ok (processPlaceP calcDist quote_plus latitude longitude blacklist whitelist
      radius_meters whitelist_radius place) := by
  obtain ⟨pid, pname, prat, paddr, plat, plng⟩ := place
  rw [WFRaw] at hwf
  simp only [Bool.and_eq_true, Option.isSome_iff_exists] at hwf
  obtain ⟨⟨⟨nm, hn⟩, la, hla⟩, ln, hln⟩ := hwf
  subst hn; subst hla; subst hln
  simp only [processPlace, processPlaceP, Option.getD_some]
  split_ifs <;> rfl

theorem processCandidates_wf (calcDist : ℚ → ℚ → ℚ → ℚ → ℚ) (quote_plus : String → String)
    (latitude longitude : ℚ) (blacklist whitelist : List String)
    (radius_meters whitelist_radius : ℚ) :
    ∀ l : List RawPlace, (∀ p ∈ l, WFRaw p = true) →
      processCandidates calcDist quote_plus latitude longitude blacklist whitelist
        radius_meters whitelist_radius l =
      .ok (processCandidatesP calcDist quote_plus latitude longitude blacklist whitelist
        radius_meters whitelist_radius l) := by
  intro l
  induction l with
  | nil => intro _; rfl
  | cons place rest ih =>
    intro hwf
    rw [processCandidates,
      processPlace_wf _ _ _ _ _ _ _ _ _ (hwf place (List.mem_cons_self _ _)),
      ih (fun p hp => hwf p (List.mem_cons_of_mem _ hp))]
    cases hpp : processPlaceP calcDist quote_plus latitude longitude blacklist whitelist
        radius_meters whitelist_radius place with
    | none =>
      show Except.ok (processCandidatesP calcDist quote_plus latitude longitude blacklist
        whitelist radius_meters whitelist_radius rest) = _
      simp only [processCandidatesP, List.filterMap_cons, hpp]
    | some q =>
      show Except.ok (q :: processCandidatesP calcDist quote_plus latitude longitude blacklist
        whitelist radius_meters whitelist_radius rest) = _
      simp only [processCandidatesP, List.filterMap_cons, hpp]

theorem dictInsert_of_not_mem (k : String) (v : CatResult) :
    ∀ d : List (String × CatResult), (∀ kv ∈ d, kv.1 ≠ k) →
      dictInsert k v d = d ++ [(k, v)] := by
  intro d
  induction d with
  | nil => intro _; rfl
  | cons p rest ih =>
    intro h
    obtain ⟨k2, v2⟩ := p
    rw [dictInsert, if_neg (h (k2, v2) (List.mem_cons_self _ _)),
      ih (fun kv hkv => h kv (List.mem_cons_of_mem _ hkv))]
    rfl

theorem goCats_cons_ok
    (calcDist : ℚ → ℚ → ℚ → ℚ → ℚ) (quote_plus : String → String)
    (fetchF : ℚ → ℚ → ℚ → String → Option String → List RawPlace)
    (hoursF : Option String → Option (List Period))
    (latitude longitude radius_meters : ℚ) (check_times : List Timestamp)
    (api_key : Option String) (whitelist_radius search_radius : ℚ)
    (whitelist blacklist : List String)
    (acc : List (String × CatResult)) (category : Category) (rest : List Category)
    (hkf : keyFalsy api_key = false) (procd : List Place)
    (hpc : processCandidates calcDist quote_plus latitude longitude blacklist whitelist
      radius_meters whitelist_radius
      (fetchF latitude longitude search_radius category.keyword api_key) = .ok procd) :
    goCats calcDist quote_plus fetchF hoursF latitude longitude radius_meters check_times
      api_key whitelist_radius search_radius whitelist blacklist acc (category :: rest) =
    goCats calcDist quote_plus fetchF hoursF latitude longitude radius_meters check_times
      api_key whitelist_radius search_radius whitelist blacklist
      (dictInsert category.name (CatResult.real (timeGuard
        (fun place => allOpenSC (fun t => _check_is_open (hoursF place.place_id) t) check_times)
        [] (sortPlaces procd))) acc) rest := by
  rw [goCats, if_neg (by simp [hkf]), hpc]

theorem goCats_mock_map
    (calcDist : ℚ → ℚ → ℚ → ℚ → ℚ) (quote_plus : String → String)
    (fetchF : ℚ → ℚ → ℚ → String → Option String → List RawPlace)
    (hoursF : Option String → Option (List Period))
    (latitude longitude radius_meters : ℚ) (check_times : List Timestamp)
    (api_key : Option String) (whitelist_radius search_radius : ℚ)
    (whitelist blacklist : List String)
    (hkf : keyFalsy api_key = true) :
    ∀ (cats : List Category) (acc : List (String × CatResult)),
      (∀ c ∈ cats, ∀ kv ∈ acc, kv.1 ≠ c.name) →
      (cats.map Category.name).Nodup →
      goCats calcDist quote_plus fetchF hoursF latitude longitude radius_meters check_times
        api_key whitelist_radius search_radius whitelist blacklist acc cats =
      .ok (acc ++ cats.map fun c =>
        (c.name, CatResult.mock (_get_mock_places c.keyword))) := by
  intro cats
  induction cats with
  | nil => intro acc _ _; simp [goCats]
  | cons category rest ih =>
    intro acc hdisj hnodup
    rw [goCats, if_pos hkf,
      dictInsert_of_not_mem _ _ acc (fun kv hkv =>
        hdisj category (List.mem_cons_self _ _) kv hkv)]
    simp only [List.map_cons, List.nodup_cons] at hnodup
    rw [ih _ ?_ hnodup.2]
    · simp [List.append_assoc]
    · intro c hc kv hkv
      rcases List.mem_append.mp hkv with h | h
      · exact hdisj c (List.mem_cons_of_mem _ hc) kv h
      · rw [List.mem_singleton] at h
        subst h
        intro heq
        have heq2 : category.name = c.name := heq
        refine hnodup.1 ?_
        rw [heq2]
        exact List.mem_map_of_mem Category.name hc

theorem goCats_real_map
    (calcDist : ℚ → ℚ → ℚ → ℚ → ℚ) (quote_plus : String → String)
    (fetchF : ℚ → ℚ → ℚ → String → Option String → List RawPlace)
    (hoursF : Option String → Option (List Period))
    (latitude longitude radius_meters : ℚ) (check_times : List Timestamp)
    (api_key : Option String) (whitelist_radius search_radius : ℚ)
    (whitelist blacklist : List String)
    (hkf : keyFalsy api_key = false)
    (hwf : ∀ kw : String, ∀ p ∈ fetchF latitude longitude search_radius kw api_key,
      WFRaw p = true) :
    ∀ (cats : List Category) (acc : List (String × CatResult)),
      (∀ c ∈ cats, ∀ kv ∈ acc, kv.1 ≠ c.name) →
      (cats.map Category.name).Nodup →
      goCats calcDist quote_plus fetchF hoursF latitude longitude radius_meters check_times
        api_key whitelist_radius search_radius whitelist blacklist acc cats =
      .ok (acc ++ cats.map fun c =>
        (c.name, CatResult.real (timeGuard
          (fun place =>
            allOpenSC (fun t => _check_is_open (hoursF place.place_id) t) check_times)
          [] (sortPlaces (processCandidatesP calcDist quote_plus latitude longitude
            blacklist whitelist radius_meters whitelist_radius
            (fetchF latitude longitude search_radius c.keyword api_key)))))) := by
  intro cats
  induction cats with
  | nil => intro acc _ _; simp [goCats]
  | cons category rest ih =>
    intro acc hdisj hnodup
    rw [goCats_cons_ok _ _ _ _ _ _ _ _ _ _ _ _ _ _ _ _ hkf _
      (processCandidates_wf _ _ _ _ _ _ _ _ _ (fun p hp => hwf category.keyword p hp)),
      dictInsert_of_not_mem _ _ acc (fun kv hkv =>
        hdisj category (List.mem_cons_self _ _) kv hkv)]
    simp only [List.map_cons, List.nodup_cons] at hnodup
    rw [ih _ ?_ hnodup.2]
    · simp [List.append_assoc]
    · intro c hc kv hkv
      rcases List.mem_append.mp hkv with h | h
      · exact hdisj c (List.mem_cons_of_mem _ hc) kv h
      · rw [List.mem_singleton] at h
        subst h
        intro heq
        have heq2 : category.name = c.name := heq
        refine hnodup.1 ?_
        rw [heq2]
        exact List.mem_map_of_mem Category.name hc

/-- C8: with `api_key` absent the engine returns, for each category, the fixed
single mock record, and the result does not depend on the candidate or
availability collaborators at all (no provider calls). -/
theorem c8_absent_key_mock
    (calcDist₁ calcDist₂ : ℚ → ℚ → ℚ → ℚ → ℚ) (quote_plus₁ quote_plus₂ : String → String)
    (fetchF₁ fetchF₂ : ℚ → ℚ → ℚ → String → Option String → List RawPlace)
    (hoursF₁ hoursF₂ : Option String → Option (List Period))
    (latitude longitude radius_meters : ℚ) (categories_list : List Category)
    (check_times : List Timestamp) (lists_config : ListsConfig) (whitelist_radius : ℚ)
    (hnodup : (categories_list.map Category.name).Nodup) :
    get_nearby_places calcDist₁ quote_plus₁ fetchF₁ hoursF₁ latitude longitude radius_meters
        categories_list check_times lists_config none whitelist_radius =
      .ok (categories_list.map fun c => (c.name, CatResult.mock
        [{ name := "Mock Place", rating := 5, address := "123 Mock St",
           distance_m := 100 }])) ∧
    get_nearby_places calcDist₁ quote_plus₁ fetchF₁ hoursF₁ latitude longitude radius_meters
        categories_list check_times lists_config none whitelist_radius =
      get_nearby_places calcDist₂ quote_plus₂ fetchF₂ hoursF₂ latitude longitude radius_meters
        categories_list check_times lists_config none whitelist_radius := by
  have h1 : ∀ (cd : ℚ → ℚ → ℚ → ℚ → ℚ) (qp : String → String)
      (fF : ℚ → ℚ → ℚ → String → Option String → List RawPlace)
      (hF : Option String → Option (List Period)),
      get_nearby_places cd qp fF hF latitude longitude radius_meters categories_list
        check_times lists_config none whitelist_radius =
      .ok (categories_list.map fun c =>
        (c.name, CatResult.mock (_get_mock_places c.keyword))) := by
    intro cd qp fF hF
    simp only [get_nearby_places]
    rw [goCats_mock_map cd qp fF hF latitude longitude radius_meters check_times none
      whitelist_radius (max radius_meters whitelist_radius)
      ((lists_config.whitelist.getD []).map lowerStr)
      ((lists_config.blacklist.getD []).map lowerStr) rfl categories_list []
      (by intro c _ kv hkv; cases hkv) hnodup]
    simp
  exact ⟨h1 calcDist₁ quote_plus₁ fetchF₁ hoursF₁,
    (h1 calcDist₁ quote_plus₁ fetchF₁ hoursF₁).trans
      (h1 calcDist₂ quote_plus₂ fetchF₂ hoursF₂).symm⟩

/-- C8 witness: one concrete category on the keyless path. -/
theorem c8_witness :
    get_nearby_places (fun _ _ _ _ => 0) id (fun _ _ _ _ _ => []) (fun _ => none)
      0 0 1000 [⟨"dining", "restaurant"⟩] [] ⟨none, none⟩ none 1500 =
    .ok [("dining", CatResult.mock
      [{ name := "Mock Place", rating := 5, address := "123 Mock St",
         distance_m := 100 }])] :=
  (c8_absent_key_mock (fun _ _ _ _ => 0) (fun _ _ _ _ => 0) id id
    (fun _ _ _ _ _ => []) (fun _ _ _ _ _ => []) (fun _ => none) (fun _ => none)
    0 0 1000 [⟨"dining", "restaurant"⟩] [] ⟨none, none⟩ 1500 (by decide)).1

/-- C10: an empty checkpoint sequence is not rejected: the per-candidate
conjunction is vacuously true, the engine returns the first three candidates
of each ranked sequence, and it never consults the availability data at all
(the result is independent of the hours collaborator). -/
theorem c10_empty_checkpoints
    (calcDist : ℚ → ℚ → ℚ → ℚ → ℚ) (quote_plus : String → String)
    (fetchF : ℚ → ℚ → ℚ → String → Option String → List RawPlace)
    (hoursF₁ hoursF₂ : Option String → Option (List Period))
    (latitude longitude radius_meters : ℚ) (categories_list : List Category)
    (lists_config : ListsConfig) (key : String) (whitelist_radius : ℚ)
    (hkey : key.isEmpty = false)
    (hwf : ∀ kw : String, ∀ p ∈ fetchF latitude longitude
      (max radius_meters whitelist_radius) kw (some key), WFRaw p = true)
    (hnodup : (categories_list.map Category.name).Nodup) :
    (∀ is_open : Timestamp → Bool, allOpenSC is_open [] = true) ∧
    get_nearby_places calcDist quote_plus fetchF hoursF₁ latitude longitude radius_meters
        categories_list [] lists_config (some key) whitelist_radius =
      .ok (categories_list.map fun c => (c.name, CatResult.real
        ((sortPlaces (processCandidatesP calcDist quote_plus latitude longitude
          ((lists_config.blacklist.getD []).map lowerStr)
          ((lists_config.whitelist.getD []).map lowerStr)
          radius_meters whitelist_radius
          (fetchF latitude longitude (max radius_meters whitelist_radius) c.keyword
            (some key)))).take 3))) ∧
    get_nearby_places calcDist quote_plus fetchF hoursF₁ latitude longitude radius_meters
        categories_list [] lists_config (some key) whitelist_radius =
      get_nearby_places calcDist quote_plus fetchF hoursF₂ latitude longitude radius_meters
        categories_list [] lists_config (some key) whitelist_radius := by
  have h1 : ∀ hF : Option String → Option (List Period),
      get_nearby_places calcDist quote_plus fetchF hF latitude longitude radius_meters
        categories_list [] lists_config (some key) whitelist_radius =
      .ok (categories_list.map fun c => (c.name, CatResult.real
        ((sortPlaces (processCandidatesP calcDist quote_plus latitude longitude
          ((lists_config.blacklist.getD []).map lowerStr)
          ((lists_config.whitelist.getD []).map lowerStr)
          radius_meters whitelist_radius
          (fetchF latitude longitude (max radius_meters whitelist_radius) c.keyword
            (some key)))).take 3))) := by
    intro hF
    simp only [get_nearby_places]
    rw [goCats_real_map _ _ _ _ _ _ _ _ _ _ _ _ _ (show keyFalsy (some key) = false from hkey)
      hwf categories_list [] (by intro c _ kv hkv; cases hkv) hnodup]
    simp only [List.nil_append]
    refine congrArg Except.ok ?_
    refine List.map_congr_left ?_
    intro c _
    rw [timeGuard_always_ok
      (fun place => allOpenSC (fun t => _check_is_open (hF place.place_id) t) [])
      (fun p => rfl) _ [] (by decide)]
    simp
  exact ⟨fun _ => rfl, h1 hoursF₁, (h1 hoursF₁).trans (h1 hoursF₂).symm⟩

/-- C10 witness: concrete empty-checkpoint run on an empty candidate set. -/
theorem c10_witness :
    get_nearby_places (fun _ _ _ _ => 0) id (fun _ _ _ _ _ => []) (fun _ => none)
      0 0 1000 [⟨"cat", "kw"⟩] [] ⟨none, none⟩ (some "k") 1500 =
    .ok [("cat", CatResult.real [])] :=
  (c10_empty_checkpoints (fun _ _ _ _ => 0) id (fun _ _ _ _ _ => []) (fun _ => none)
    (fun _ => none) 0 0 1000 [⟨"cat", "kw"⟩] ⟨none, none⟩ "k" 1500 rfl
    (by intro kw p hp; cases hp) (by decide)).2.1

/-- C7 counterexample: a single malformed candidate (missing name) on the
keyed path makes the entry point raise `AttributeError` at
`place["name"].lower()` - there is no try/except around the candidate loop,
so the exception propagates to the caller instead of skipping the record. -/
theorem c7_counterexample :
    get_nearby_places (fun _ _ _ _ => 0) id
      (fun _ _ _ _ _ =>
        [(⟨some "p1", none, none, some "A St", some 0, some 0⟩ : RawPlace)])
      (fun _ => none) 0 0 1000 [⟨"cat", "kw"⟩] [] ⟨none, none⟩ (some "k") 1500
      = .error "AttributeError" := rfl

/-- C7 (amended): provider transport failures are absorbed by the collaborator
wrappers, and when every fetched candidate record carries a name and
coordinates the entry point returns a normal result; the amendment is that a
malformed candidate record is NOT skipped - it raises, see the
counterexample. -/
theorem c7_wf_no_exception
    (calcDist : ℚ → ℚ → ℚ → ℚ → ℚ) (quote_plus : String → String)
    (fetchF : ℚ → ℚ → ℚ → String → Option String → List RawPlace)
    (hoursF : Option String → Option (List Period))
    (latitude longitude radius_meters : ℚ) (categories_list : List Category)
    (check_times : List Timestamp) (lists_config : ListsConfig)
    (api_key : Option String) (whitelist_radius : ℚ)
    (hwf : ∀ kw : String, ∀ p ∈ fetchF latitude longitude
      (max radius_meters whitelist_radius) kw api_key, WFRaw p = true) :
    ∃ res, get_nearby_places calcDist quote_plus fetchF hoursF latitude longitude
      radius_meters categories_list check_times lists_config api_key whitelist_radius
      = .ok res := by
  simp only [get_nearby_places]
  suffices h : ∀ (cats : List Category) (acc : List (String × CatResult)),
      ∃ res, goCats calcDist quote_plus fetchF hoursF latitude longitude radius_meters
        check_times api_key whitelist_radius (max radius_meters whitelist_radius)
        ((lists_config.whitelist.getD []).map lowerStr)
        ((lists_config.blacklist.getD []).map lowerStr) acc cats = .ok res by
    exact h categories_list []
  intro cats
  induction cats with
  | nil => intro acc; exact ⟨acc, rfl⟩
  | cons category rest ih =>
    intro acc
    by_cases hkf : keyFalsy api_key = true
    · rw [goCats, if_pos hkf]
      exact ih _
    · rw [Bool.not_eq_true] at hkf
      rw [goCats_cons_ok _ _ _ _ _ _ _ _ _ _ _ _ _ _ _ _ hkf _
        (processCandidates_wf _ _ _ _ _ _ _ _ _ (fun p hp => hwf category.keyword p hp))]
      exact ih _

/-- C7 witness: a concrete well-formed run returns a normal result. -/
theorem c7_witness :
    ∃ res, get_nearby_places (fun _ _ _ _ => 0) id (fun _ _ _ _ _ => [])
      (fun _ => none) 0 0 1000 [⟨"cat", "kw"⟩] [] ⟨none, none⟩ (some "k") 1500
      = .ok res :=
  c7_wf_no_exception (fun _ _ _ _ => 0) id (fun _ _ _ _ _ => []) (fun _ => none)
    0 0 1000 [⟨"cat", "kw"⟩] [] ⟨none, none⟩ (some "k") 1500
    (by intro kw p hp; cases hp)

theorem processPlace_not_blacklisted
    (calcDist : ℚ → ℚ → ℚ → ℚ → ℚ) (quote_plus : String → String)
    (latitude longitude : ℚ) (blacklist whitelist : List String)
    (radius_meters whitelist_radius : ℚ) (place : RawPlace) (q : Place)
    (h : processPlace calcDist quote_plus latitude longitude blacklist whitelist
      radius_meters whitelist_radius place = .ok (some q)) :
    blacklist.any (fun b_term => inStr b_term (lowerStr q.name)) = false := by
  obtain ⟨pid, pname, prat, paddr, plat, plng⟩ := place
  cases pname with
  | none => simp [processPlace] at h
  | some nm =>
    simp only [processPlace] at h
    by_cases hb : blacklist.any (fun b_term => inStr b_term (lowerStr nm)) = true
    · rw [if_pos hb] at h
      simp at h
    · rw [if_neg hb] at h
      have hq : q.name = nm := by
        split at h
        · split_ifs at h
          · exact absurd h (by simp)
          · simp only [Except.ok.injEq, Option.some.injEq] at h
            subst h
            rfl
          · exact absurd h (by simp)
          · simp only [Except.ok.injEq, Option.some.injEq] at h
            subst h
            rfl
        · exact absurd h (by simp)
      cases hbv : blacklist.any (fun b_term => inStr b_term (lowerStr nm)) with
      | false => rw [hq]; exact hbv
      | true => exact absurd hbv hb

theorem mem_processCandidates
    (calcDist : ℚ → ℚ → ℚ → ℚ → ℚ) (quote_plus : String → String)
    (latitude longitude : ℚ) (blacklist whitelist : List String)
    (radius_meters whitelist_radius : ℚ) :
    ∀ (l : List RawPlace) (procd : List Place),
      processCandidates calcDist quote_plus latitude longitude blacklist whitelist
        radius_meters whitelist_radius l = .ok procd →
      ∀ q ∈ procd, blacklist.any (fun b_term => inStr b_term (lowerStr q.name)) = false := by
  intro l
  induction l with
  | nil =>
    intro procd h q hq
    have h2 : ([] : List Place) = procd := Except.ok.inj h
    subst h2
    cases hq
  | cons place rest ih =>
    intro procd h q hq
    rw [processCandidates] at h
    cases hpp : processPlace calcDist quote_plus latitude longitude blacklist whitelist
        radius_meters whitelist_radius place with
    | error e => rw [hpp] at h; cases h
    | ok r =>
      rw [hpp] at h
      cases r with
      | none => exact ih procd h q hq
      | some p =>
        cases hrest : processCandidates calcDist quote_plus latitude longitude blacklist
            whitelist radius_meters whitelist_radius rest with
        | error e => rw [hrest] at h; cases h
        | ok ps =>
          rw [hrest] at h
          have h2 : Except.ok (p :: ps) = (Except.ok procd : Except String (List Place)) := h
          have h3 : p :: ps = procd := Except.ok.inj h2
          subst h3
          rcases List.mem_cons.mp hq with h4 | h4
          · subst h4
            exact processPlace_not_blacklisted _ _ _ _ _ _ _ _ _ _ hpp
          · exact ih ps hrest q h4

/-- C3: a candidate whose lowercase name contains a configured blacklist term
never reaches the returned recommendations (and is dropped before the
promotion flag is ever set), whitelist match or not: every place in any
returned category list matches no blacklist term. -/
theorem c3_blacklist_dominates
    (calcDist : ℚ → ℚ → ℚ → ℚ → ℚ) (quote_plus : String → String)
    (fetchF : ℚ → ℚ → ℚ → String → Option String → List RawPlace)
    (hoursF : Option String → Option (List Period))
    (latitude longitude radius_meters : ℚ) (categories_list : List Category)
    (check_times : List Timestamp) (lists_config : ListsConfig)
    (api_key : Option String) (whitelist_radius : ℚ)
    (res : List (String × CatResult)) (cat_name : String) (pl : List Place)
    (place : Place) (b : String)
    (hok : get_nearby_places calcDist quote_plus fetchF hoursF latitude longitude
      radius_meters categories_list check_times lists_config api_key whitelist_radius
      = .ok res)
    (hmem : (cat_name, CatResult.real pl) ∈ res)
    (hp : place ∈ pl)
    (hb : b ∈ lists_config.blacklist.getD []) :
    inStr (lowerStr b) (lowerStr place.name) = false := by
  rw [get_nearby_places] at hok
  rcases mem_goCats _ _ _ _ _ _ _ _ _ _ _ _ _ _ _ _ hok _ hmem with h | h | h
  · cases h
  · obtain ⟨c, _, hv⟩ := h
    have hv2 : CatResult.real pl = CatResult.mock (_get_mock_places c.keyword) := hv
    cases hv2
  · obtain ⟨c, _, procd, hpc, hv⟩ := h
    have hv2 : CatResult.real pl = CatResult.real (timeGuard
      (fun pp => allOpenSC (fun t => _check_is_open (hoursF pp.place_id) t) check_times)
      [] (sortPlaces procd)) := hv
    have hv3 : pl = timeGuard
      (fun pp => allOpenSC (fun t => _check_is_open (hoursF pp.place_id) t) check_times)
      [] (sortPlaces procd) := CatResult.real.inj hv2
    subst hv3
    rcases mem_timeGuard _ place _ [] hp with h0 | ⟨hmem2, _⟩
    · cases h0
    · have hmem3 : place ∈ procd :=
        (List.Perm.mem_iff (List.perm_insertionSort keyLE procd)).mp hmem2
      have hall := mem_processCandidates _ _ _ _ _ _ _ _ _ procd hpc place hmem3
      rw [List.any_eq_false] at hall
      have hx : lowerStr b ∈ (lists_config.blacklist.getD []).map lowerStr :=
        List.mem_map_of_mem lowerStr hb
      have hne := hall (lowerStr b) hx
      cases hv4 : inStr (lowerStr b) (lowerStr place.name) with
      | false => rfl
      | true => exact absurd hv4 hne

/-- C3 witness: a clean candidate in a returned category matches no blacklist
term, and the blacklisted-and-whitelisted name (blacklist term inside the
name, whitelist term too) is dropped by the classification step. -/
theorem c3_witness :
    inStr (lowerStr "bar") (lowerStr sampleProcessed.name) = false ∧
    processPlaceP (fun _ _ _ _ => 500) id 0 0 ["bar"] ["joe"] 1000 1500
      { sampleRaw with name := some "Joes Sports Bar" } = none :=
  ⟨c3_blacklist_dominates (fun _ _ _ _ => 500) id (fun _ _ _ _ _ => [sampleRaw])
    (fun _ => none) 0 0 1000 [⟨"cat", "kw"⟩] [] ⟨none, some ["bar"]⟩ (some "k") 1500
    [("cat", CatResult.real [sampleProcessed])] "cat" [sampleProcessed]
    sampleProcessed "bar" rfl (by decide) (by decide) (by decide),
   by decide⟩

/-- C5: among classified candidates (name present, coordinates present, not
blacklisted), a candidate survives the radius filter exactly when its distance
does not exceed its tier bound: `whitelist_radius` when whitelisted,
`radius_meters` otherwise. -/
theorem c5_radius_filter
    (calcDist : ℚ → ℚ → ℚ → ℚ → ℚ) (quote_plus : String → String)
    (latitude longitude : ℚ) (blacklist whitelist : List String)
    (radius_meters whitelist_radius : ℚ) (place : RawPlace) (nm : String) (la ln : ℚ)
    (hn : place.name = some nm) (hla : place.lat = some la) (hln : place.lng = some ln)
    (hnb : blacklist.any (fun b_term => inStr b_term (lowerStr nm)) = false) :
    (∃ q, processPlace calcDist quote_plus latitude longitude blacklist whitelist
      radius_meters whitelist_radius place = .ok (some q)) ↔
      calcDist latitude longitude la ln ≤
        (if whitelist.any (fun w_term => inStr w_term (lowerStr nm)) = true
         then whitelist_radius else radius_meters) := by
  obtain ⟨pid, pname, prat, paddr, plat, plng⟩ := place
  have hn2 : pname = some nm := hn
  have hla2 : plat = some la := hla
  have hln2 : plng = some ln := hln
  subst hn2; subst hla2; subst hln2
  simp only [processPlace]
  rw [if_neg (by simp [hnb])]
  by_cases hw : whitelist.any (fun w_term => inStr w_term (lowerStr nm)) = true
  · have hbound : (if whitelist.any (fun w_term => inStr w_term (lowerStr nm)) = true
        then whitelist_radius else radius_meters) = whitelist_radius := if_pos hw
    rw [hbound, if_pos hw]
    by_cases hd : calcDist latitude longitude la ln > whitelist_radius
    · rw [if_pos hd]
      constructor
      · rintro ⟨q, hq⟩
        simp at hq
      · intro hle
        exact absurd hle (not_le.mpr hd)
    · rw [if_neg hd]
      constructor
      · intro _
        exact not_lt.mp hd
      · intro _
        exact ⟨_, rfl⟩
  · have hbound : (if whitelist.any (fun w_term => inStr w_term (lowerStr nm)) = true
        then whitelist_radius else radius_meters) = radius_meters := if_neg hw
    rw [hbound, if_neg hw]
    by_cases hd : calcDist latitude longitude la ln > radius_meters
    · rw [if_pos hd]
      constructor
      · rintro ⟨q, hq⟩
        simp at hq
      · intro hle
        exact absurd hle (not_le.mpr hd)
    · rw [if_neg hd]
      constructor
      · intro _
        exact not_lt.mp hd
      · intro _
        exact ⟨_, rfl⟩

/-- C5 witness: at distance 1800 with base radius 1000 and whitelist radius
2000, the whitelisted candidate survives and the ordinary one is dropped. -/
theorem c5_witness :
    (∃ q, processPlace (fun _ _ _ _ => 1800) id 0 0 [] ["corner"] 1000 2000
      sampleRaw = .ok (some q)) ∧
    processPlace (fun _ _ _ _ => 1800) id 0 0 [] [] 1000 2000 sampleRaw = .ok none :=
  ⟨(c5_radius_filter (fun _ _ _ _ => 1800) id 0 0 [] ["corner"] 1000 2000
      sampleRaw "Corner Cafe" 0 0 rfl rfl rfl (by decide)).mpr (by decide),
   rfl⟩

theorem keyLE_of_eq {x y : Place} (h : sortKey x = sortKey y) : keyLE x y := by
  unfold keyLE
  right
  exact ⟨congrArg Prod.fst h, le_of_eq (congrArg Prod.snd h)⟩

theorem sortKey_ne_of_not_keyLE {x y : Place} (h : ¬ keyLE x y) :
    sortKey x ≠ sortKey y :=
  fun he => h (keyLE_of_eq he)

theorem filter_orderedInsert (k : Int × ℚ) (a : Place) :
    ∀ l : List Place,
      (List.orderedInsert keyLE a l).filter (fun x => decide (sortKey x = k)) =
      if sortKey a = k then a :: l.filter (fun x => decide (sortKey x = k))
      else l.filter (fun x => decide (sortKey x = k)) := by
  intro l
  induction l with
  | nil =>
    by_cases h : sortKey a = k <;>
      simp [List.orderedInsert, List.filter_cons, h]
  | cons b l ih =>
    rw [List.orderedInsert]
    by_cases hab : keyLE a b
    · rw [if_pos hab]
      by_cases ha : sortKey a = k <;> by_cases hb2 : sortKey b = k <;>
        simp [List.filter_cons, ha, hb2]
    · rw [if_neg hab]
      by_cases ha : sortKey a = k
      · have hbk : ¬ sortKey b = k := fun hbb =>
          (sortKey_ne_of_not_keyLE hab) (ha.trans hbb.symm)
        simp [List.filter_cons, ha, hbk, ih]
      · by_cases hb2 : sortKey b = k <;> simp [List.filter_cons, ha, hb2, ih]

theorem filter_insertionSort_key (k : Int × ℚ) :
    ∀ l : List Place,
      (sortPlaces l).filter (fun x => decide (sortKey x = k)) =
      l.filter (fun x => decide (sortKey x = k)) := by
  intro l
  induction l with
  | nil => rfl
  | cons a l ih =>
    rw [sortPlaces] at ih ⊢
    rw [List.insertionSort, filter_orderedInsert k a (List.insertionSort keyLE l)]
    by_cases ha : sortKey a = k <;> simp [List.filter_cons, ha, ih]

/-- C6: the ranking sorts promoted candidates first and, within equal
promotion, by ascending distance; candidates with equal sort key keep their
input order (the filter on any fixed key value is unchanged, the stable-sort
characterization); and the output is a permutation of the input.  Being a
pure function, the ranking gives identical output on identical input. -/
theorem c6_ranking (l : List Place) :
    (sortPlaces l).Pairwise (fun x y => y.is_promoted ≤ x.is_promoted ∧
      (x.is_promoted = y.is_promoted → x.distance_m ≤ y.distance_m)) ∧
    (∀ k : Int × ℚ, (sortPlaces l).filter (fun x => decide (sortKey x = k)) =
      l.filter (fun x => decide (sortKey x = k))) ∧
    (sortPlaces l).Perm l := by
  refine ⟨?_, fun k => filter_insertionSort_key k l, List.perm_insertionSort keyLE l⟩
  have hs : List.Sorted keyLE (sortPlaces l) := List.sorted_insertionSort keyLE l
  refine List.Pairwise.imp ?_ hs
  intro x y hxy
  simp only [keyLE, sortKey, neg_lt_neg_iff, neg_inj, Nat.cast_lt, Nat.cast_inj] at hxy
  rcases hxy with h | ⟨he, hd⟩
  · exact ⟨le_of_lt h, fun hpe => absurd h (by omega)⟩
  · exact ⟨le_of_eq he.symm, fun _ => hd⟩

theorem atan2_nonneg {y x : ℝ} (hy : 0 ≤ y) : 0 ≤ atan2 y x := by
  unfold atan2
  split_ifs with h1 h2 h3 h4
  · have hq : (0 : ℝ) ≤ y / x := div_nonneg hy h1.le
    have h6 := Real.arctan_strictMono.monotone hq
    rwa [Real.arctan_zero] at h6
  · have h6 := Real.neg_pi_div_two_lt_arctan (y / x)
    have h7 := Real.pi_pos
    linarith
  · have h7 := Real.pi_pos
    linarith
  · linarith
  · exact le_refl 0

theorem sin_sq_radians_symm (u v : ℝ) :
    Real.sin (radians (u - v) / 2) ^ 2 = Real.sin (radians (v - u) / 2) ^ 2 := by
  have h : radians (u - v) / 2 = -(radians (v - u) / 2) := by unfold radians; ring
  rw [h, Real.sin_neg]
  ring

theorem calculate_distance_symm (lat1 lon1 lat2 lon2 : ℝ) :
    calculate_distance lat1 lon1 lat2 lon2 = calculate_distance lat2 lon2 lat1 lon1 := by
  simp only [calculate_distance]
  rw [sin_sq_radians_symm lat2 lat1, sin_sq_radians_symm lon2 lon1]
  have ha : Real.sin (radians (lat1 - lat2) / 2) ^ 2 +
      Real.cos (radians lat1) * Real.cos (radians lat2) *
        Real.sin (radians (lon1 - lon2) / 2) ^ 2 =
      Real.sin (radians (lat1 - lat2) / 2) ^ 2 +
      Real.cos (radians lat2) * Real.cos (radians lat1) *
        Real.sin (radians (lon1 - lon2) / 2) ^ 2 := by ring
  rw [ha]

theorem calculate_distance_self (lat1 lon1 : ℝ) :
    calculate_distance lat1 lon1 lat1 lon1 = 0 := by
  simp only [calculate_distance, sub_self]
  rw [show radians 0 = 0 by unfold radians; ring]
  norm_num [Real.sin_zero, Real.sqrt_zero, Real.sqrt_one]
  rw [show atan2 0 1 = 0 by rw [atan2, if_pos (zero_lt_one)]; simp [Real.arctan_zero]]

theorem calculate_distance_nonneg (lat1 lon1 lat2 lon2 : ℝ) :
    0 ≤ calculate_distance lat1 lon1 lat2 lon2 := by
  simp only [calculate_distance]
  refine mul_nonneg (by norm_num) (mul_nonneg (by norm_num) ?_)
  exact atan2_nonneg (Real.sqrt_nonneg _)

/-- C9: the great-circle distance of geo.py is symmetric, vanishes on equal
coordinates, and is never negative (Haversine on the 6,371,000 m sphere). -/
theorem c9_distance_properties (lat1 lon1 lat2 lon2 : ℝ) :
    calculate_distance lat1 lon1 lat2 lon2 = calculate_distance lat2 lon2 lat1 lon1 ∧
    calculate_distance lat1 lon1 lat1 lon1 = 0 ∧
    0 ≤ calculate_distance lat1 lon1 lat2 lon2 :=
  ⟨calculate_distance_symm lat1 lon1 lat2 lon2,
   calculate_distance_self lat1 lon1,
   calculate_distance_nonneg lat1 lon1 lat2 lon2⟩
